/-
Verification of `scripts/validate_and_compute_stability.py`.

The script validates a habit-tracking CSV: it checks the header against a
fixed column list, checks each data row (missing/duplicate dates, numeric
parsing, ranges, integer-only fields), verifies or fills the derived
`stability` column, and optionally rewrites the file with normalized columns.

Modelling conventions:
* A parsed CSV data row (what Python's `csv.DictReader` yields) is an
  association list from column name to raw string value.
* Python `float` values are modelled as exact rationals (`ℚ`); the string
  parser models `float(str)` on plain decimal literals, which is the whole
  domain the script's data format uses.  `round(x, 1)` is modelled as
  round-half-to-even at one decimal, the rule Python documents for `round`.
* `validate_csv` takes the `DictReader` view of the file: `none` when the
  file has no header row, otherwise the header name list plus the data rows.
-/
import Mathlib

set_option autoImplicit false

namespace HabitTracking

/-- The single-quote character, used when rendering Python `repr` strings. -/
def sq : String := String.singleton (Char.ofNat 39)

/-- Python `str.strip()` on a character list: drop leading and trailing
whitespace. -/
def stripChars (cs : List Char) : List Char :=
  ((cs.dropWhile Char.isWhitespace).reverse.dropWhile Char.isWhitespace).reverse

/-- Python `str.strip()`. -/
def pyStrip (s : String) : String := String.mk (stripChars s.data)

/-- `_is_blank(value)`: `value is None or value.strip() == ""`. -/
def is_blank : Option String → Bool
  | none => true
  | some v => pyStrip v == ""

/-- Numeric value of a digit list (most significant first). -/
def digitsToNat (cs : List Char) : Nat :=
  cs.foldl (fun a c => a * 10 + (c.toNat - 48)) 0

/-- Models Python `float(str)` on an unsigned plain decimal literal:
digits with at most one decimal point and at least one digit overall.
(Exponents, `inf`/`nan` and underscores are outside the data format the
script handles and are not modelled.) -/
def pyFloatCore (cs : List Char) : Option ℚ :=
  match cs.splitOn (Char.ofNat 46) with
  | [ipart] =>
      if 0 < ipart.length ∧ ipart.all Char.isDigit then
        some (digitsToNat ipart)
      else none
  | [ipart, fpart] =>
      if 0 < ipart.length + fpart.length ∧ ipart.all Char.isDigit ∧ fpart.all Char.isDigit then
        some ((digitsToNat ipart : ℚ) + (digitsToNat fpart : ℚ) / (10 : ℚ) ^ fpart.length)
      else none
  | _ => none

/-- Models Python `float(str)`: optional sign then a plain decimal literal. -/
def pyFloat (s : String) : Option ℚ :=
  match s.data with
  | [] => none
  | c :: rest =>
      if c = Char.ofNat 45 then (pyFloatCore rest).map (fun q => -q)
      else if c = Char.ofNat 43 then pyFloatCore rest
      else pyFloatCore (c :: rest)

/-- `_to_float(value)`: `None` when blank, otherwise `float(value)` or `None`
on a parse failure. -/
def to_float (value : String) : Option ℚ :=
  if is_blank (some value) then none else pyFloat value

/-- Floor of a rational as an integer (`Int.fdiv` is floor division). -/
def ratFloor (q : ℚ) : ℤ := q.num.fdiv q.den

/-- Round a rational to the nearest integer, ties to even (the rule Python
documents for `round`). -/
def roundHalfEven (q : ℚ) : ℤ :=
  let f := ratFloor q
  let r := q - (f : ℚ)
  if r < 1 / 2 then f
  else if 1 / 2 < r then f + 1
  else if f % 2 = 0 then f else f + 1

/-- Python `round(x, 1)`: round half to even at one decimal. -/
def roundTo1 (q : ℚ) : ℚ := (roundHalfEven (q * 10) : ℚ) / 10

/-- `compute_stability(clarity, calm, routine)`:
`round((clarity + calm + routine) / 3.0, 1)`. -/
def compute_stability (clarity calm routine : ℚ) : ℚ :=
  roundTo1 ((clarity + calm + routine) / 3)

/-- Number of decimal digits needed to write `q` exactly (with a fuel bound;
every value the script manipulates is a short finite decimal). -/
def fracDigitsAux : ℚ → Nat → Nat
  | _, 0 => 0
  | q, fuel + 1 => if q.den = 1 then 0 else fracDigitsAux (q * 10) fuel + 1

/-- Left-pad a digit string with zeros to length `k`. -/
def zeroPad (s : String) (k : Nat) : String :=
  String.mk (List.replicate (k - s.length) (Char.ofNat 48)) ++ s

/-- Python's `str(float)` / f-string rendering of a finite-decimal value:
shortest exact decimal with at least one digit after the point
(`30.5 ↦ "30.5"`, `5 ↦ "5.0"`). -/
def fmtFloat (q : ℚ) : String :=
  let k := max (fracDigitsAux q 40) 1
  let m := (q * (10 : ℚ) ^ k).num.natAbs
  (if q < 0 then "-" else "") ++ Nat.repr (m / 10 ^ k) ++ "." ++ zeroPad (Nat.repr (m % 10 ^ k)) k

/-- Python `f"{x:.1f}"`: fixed one-decimal rendering. -/
def fmtFixed1 (q : ℚ) : String :=
  let n := roundHalfEven (q * 10)
  (if n < 0 then "-" else "") ++ Nat.repr (n.natAbs / 10) ++ "." ++ Nat.repr (n.natAbs % 10)

/-! ## Schema constants -/

/-- `REQUIRED_COLUMNS`. -/
def REQUIRED_COLUMNS : List String :=
  ["date", "clarity", "calm", "routine", "stability", "sleep_hours", "sleep_quality",
   "exercise_minutes", "caffeine_units", "social_minutes", "stressors", "notes"]

/-- `RANGES`, in the source's (insertion) order, which is the order the
row loop iterates the columns in. -/
def RANGES : List (String × ℚ × ℚ) :=
  [("clarity", 0, 10), ("calm", 0, 10), ("routine", 0, 10), ("stability", 0, 10),
   ("sleep_hours", 0, 16), ("sleep_quality", 1, 5), ("exercise_minutes", 0, 300),
   ("caffeine_units", 0, 20), ("social_minutes", 0, 1440), ("stressors", 0, 3)]

/-- `INT_FIELDS`. -/
def INT_FIELDS : List String :=
  ["sleep_quality", "exercise_minutes", "caffeine_units", "social_minutes", "stressors"]

/-- `FLOAT_FIELDS` (unused by the validation pass, kept for completeness). -/
def FLOAT_FIELDS : List String :=
  ["clarity", "calm", "routine", "stability", "sleep_hours"]

/-! ## Data model -/

/-- `Issue(row_number, column, message)`. -/
structure Issue where
  row_number : Nat
  column : String
  message : String
deriving DecidableEq

/-- A parsed CSV data row: association list from column name to raw value. -/
abbrev Row := List (String × String)

/-- Python `row.get(col, "")`. -/
def getField (r : Row) (k : String) : String := (List.lookup k r).getD ""

/-- Python dict assignment `r[k] = v`: replace the value if the key is
present, append the binding otherwise. -/
def setField : Row → String → String → Row
  | [], k, v => [(k, v)]
  | (k0, v0) :: rest, k, v =>
      if k0 = k then (k0, v) :: rest else (k0, v0) :: setField rest k v

/-- `seen_dates.add(date)` on a set modelled as a duplicate-free list. -/
def insertSeen (d : String) (seen : List String) : List String :=
  if d ∈ seen then seen else d :: seen

/-- `row_clean = {k: (v.strip() if isinstance(v, str) else v) for k, v in row.items()}`. -/
def cleanRow (r : Row) : Row := r.map (fun p => (p.1, pyStrip p.2))

/-- Python list `repr` of a list of plain strings, as produced by the
f-strings in `_validate_columns`. -/
def pyStrList (l : List String) : String :=
  "[" ++ String.intercalate ", " (l.map (fun s => sq ++ s ++ sq)) ++ "]"

/-- `missing = [c for c in REQUIRED_COLUMNS if c not in header]`. -/
def missingColumns (header : List String) : List String :=
  REQUIRED_COLUMNS.filter (fun c => !(header.contains c))

/-- `extras = [c for c in header if c not in REQUIRED_COLUMNS]`. -/
def extraColumns (header : List String) : List String :=
  header.filter (fun c => !(REQUIRED_COLUMNS.contains c))

/-- `_validate_columns(header)`: the list of header-level messages. -/
def validate_columns (header : List String) : List String :=
  (if missingColumns header = [] then []
   else ["Missing columns: " ++ pyStrList (missingColumns header)]) ++
  (if extraColumns header = [] then []
   else ["Unexpected extra columns: " ++ pyStrList (extraColumns header)])

/-! ## The row loop -/

/-- The type + range + integer checks for one ranged column of one cleaned
row (the body of the `for col in RANGES.keys()` loop): the issues appended
for this column, and `numeric_values[col]`. -/
def checkNumeric (idx : Nat) (rc : Row) (col : String) (lo hi : ℚ) : List Issue × Option ℚ :=
  if is_blank (some (getField rc col)) then ([], none)
  else
    match to_float (getField rc col) with
    | none => ([⟨idx, col, "Not a number: " ++ sq ++ getField rc col ++ sq⟩], none)
    | some fval =>
        ((if fval < lo ∨ hi < fval then
            [⟨idx, col, "Out of range " ++ fmtFloat lo ++ "–" ++ fmtFloat hi ++ ": " ++ fmtFloat fval⟩]
          else []) ++
         (if col ∈ INT_FIELDS ∧ fval.den ≠ 1 then
            [⟨idx, col, "Expected integer, got: " ++ fmtFloat fval⟩]
          else []),
         some fval)

/-- The `for col in RANGES.keys()` loop over a given column list: the issues
in discovery order and the `numeric_values` association list. -/
def numericChecksAux (idx : Nat) (rc : Row) : List (String × ℚ × ℚ) → List Issue × List (String × Option ℚ)
  | [] => ([], [])
  | c :: rest =>
      ((checkNumeric idx rc c.1 c.2.1 c.2.2).1 ++ (numericChecksAux idx rc rest).1,
       (c.1, (checkNumeric idx rc c.1 c.2.1 c.2.2).2) :: (numericChecksAux idx rc rest).2)

/-- The numeric loop over all of `RANGES`. -/
def numericChecks (idx : Nat) (rc : Row) : List Issue × List (String × Option ℚ) :=
  numericChecksAux idx rc RANGES

/-- Python `numeric_values.get(col)` (`None` when the key is absent). -/
def nvGet (nv : List (String × Option ℚ)) (col : String) : Option ℚ :=
  (List.lookup col nv).getD none

/-- The message of a stability-mismatch issue. -/
def mismatchMsg (existing computed : ℚ) : String :=
  "Does not match (clarity+calm+routine)/3. Existing=" ++ fmtFixed1 existing ++
    ", Computed=" ++ fmtFixed1 computed

/-- The stability consistency-check / fill step of the row loop: extra
issues and the (possibly updated) cleaned row. -/
def stabilityStep (idx : Nat) (rc : Row) (nv : List (String × Option ℚ)) : List Issue × Row :=
  match nvGet nv "clarity", nvGet nv "calm", nvGet nv "routine" with
  | some clarity, some calm, some routine =>
      let computed := compute_stability clarity calm routine
      match nvGet nv "stability" with
      | none => ([], setField rc "stability" (fmtFixed1 computed))
      | some existing =>
          if 1 / 10 < |existing - computed| then
            ([⟨idx, "stability", mismatchMsg existing computed⟩], rc)
          else ([], rc)
  | _, _, _ => ([], rc)

/-- One iteration of the row loop at line number `idx`: the issues the row
appends (in order), the cleaned row pushed onto `rows_out`, and the updated
`seen_dates`. -/
def processRow (idx : Nat) (row : Row) (seen : List String) : List Issue × Row × List String :=
  let rc := cleanRow row
  let date := getField rc "date"
  let dateIss : List Issue :=
    if is_blank (some date) then [⟨idx, "date", "Missing date"⟩]
    else if date ∈ seen then [⟨idx, "date", "Duplicate date: " ++ date⟩]
    else []
  let seen2 := if is_blank (some date) then seen else insertSeen date seen
  (dateIss ++ (numericChecks idx rc).1 ++ (stabilityStep idx rc (numericChecks idx rc).2).1,
   (stabilityStep idx rc (numericChecks idx rc).2).2,
   seen2)

/-- The whole row loop from line number `idx` with `seen_dates = seen`:
accumulated issues, `rows_out`, and `valid_rows`. -/
def processRows : Nat → List Row → List String → List Issue × List Row × Nat
  | _, [], _ => ([], [], 0)
  | idx, r :: rest, seen =>
      ((processRow idx r seen).1 ++ (processRows (idx + 1) rest (processRow idx r seen).2.2).1,
       (processRow idx r seen).2.1 :: (processRows (idx + 1) rest (processRow idx r seen).2.2).2.1,
       (processRows (idx + 1) rest (processRow idx r seen).2.2).2.2 + 1)

/-- The `(issues, valid_rows)` return value of `validate_csv`, with the
internal `rows_out` list exposed so that the write-back path can be stated. -/
structure ValidationResult where
  issues : List Issue
  rows_out : List Row
  valid_rows : Nat
deriving DecidableEq

/-- The write-back projection of the cleaned rows:
`{c: r.get(c, "") for c in REQUIRED_COLUMNS}` for each row, in order. -/
def writeBackRows (rows_out : List Row) : List Row :=
  rows_out.map (fun r => REQUIRED_COLUMNS.map (fun c => (c, getField r c)))

/-- `validate_csv(path, write_back)` on the `DictReader` view of the file:
`fieldnames` is `none` for a file with no header row; otherwise the header
and the data rows.  Returns the validation result and, when write-back runs,
the written file (header plus rows).  The early return for a missing header
skips write-back. -/
def validate_csv (fieldnames : Option (List String)) (rows : List Row) (write_back : Bool) :
    ValidationResult × Option (List String × List Row) :=
  match fieldnames with
  | none => (⟨[⟨0, "", "CSV has no header row"⟩], [], 0⟩, none)
  | some header =>
      (⟨(validate_columns header).map (fun m => ⟨0, "header", m⟩) ++ (processRows 2 rows []).1,
        (processRows 2 rows []).2.1,
        (processRows 2 rows []).2.2⟩,
       if write_back then some (REQUIRED_COLUMNS, writeBackRows (processRows 2 rows []).2.1)
       else none)

/-! ## Structural lemmas about the row loop -/

theorem getField_setField (r : Row) (k v : String) : getField (setField r k v) k = v := by
  induction r with
  | nil => simp [setField, getField, List.lookup]
  | cons p rest ih =>
      by_cases h : p.1 = k
      · simp [setField, h, getField, List.lookup]
      · have hbeq : (k == p.1) = false := by
          simpa [beq_eq_false_iff_ne] using Ne.symm h
        simpa [setField, h, getField, List.lookup, hbeq] using ih

theorem is_blank_false_of_to_float {s : String} {v : ℚ} (h : to_float s = some v) :
    is_blank (some s) = false := by
  by_cases hb : is_blank (some s) = true
  · simp [to_float, hb] at h
  · simpa using hb

theorem checkNumeric_column {idx : Nat} {rc : Row} {col : String} {lo hi : ℚ} {i : Issue}
    (h : i ∈ (checkNumeric idx rc col lo hi).1) : i.column = col := by
  unfold checkNumeric at h
  split at h
  · simp at h
  · split at h
    · simp at h; subst h; rfl
    · simp only [List.mem_append] at h
      rcases h with h | h <;> [skip; skip] <;> split at h <;> simp at h <;> subst h <;> rfl

theorem checkNumeric_row_number {idx : Nat} {rc : Row} {col : String} {lo hi : ℚ} {i : Issue}
    (h : i ∈ (checkNumeric idx rc col lo hi).1) : i.row_number = idx := by
  unfold checkNumeric at h
  split at h
  · simp at h
  · split at h
    · simp at h; subst h; rfl
    · simp only [List.mem_append] at h
      rcases h with h | h <;> [skip; skip] <;> split at h <;> simp at h <;> subst h <;> rfl

theorem checkNumeric_blank {idx : Nat} {rc : Row} {col : String} {lo hi : ℚ}
    (h : is_blank (some (getField rc col)) = true) :
    checkNumeric idx rc col lo hi = ([], none) := by
  unfold checkNumeric
  simp [h]

theorem checkNumeric_parsed {idx : Nat} {rc : Row} {col : String} {lo hi : ℚ} {v : ℚ}
    (h : to_float (getField rc col) = some v) :
    checkNumeric idx rc col lo hi =
      ((if v < lo ∨ hi < v then
          [⟨idx, col, "Out of range " ++ fmtFloat lo ++ "–" ++ fmtFloat hi ++ ": " ++ fmtFloat v⟩]
        else []) ++
       (if col ∈ INT_FIELDS ∧ v.den ≠ 1 then
          [⟨idx, col, "Expected integer, got: " ++ fmtFloat v⟩]
        else []),
       some v) := by
  unfold checkNumeric
  rw [is_blank_false_of_to_float h]
  simp [h]

theorem checkNumeric_unparsable {idx : Nat} {rc : Row} {col : String} {lo hi : ℚ}
    (hb : is_blank (some (getField rc col)) = false)
    (h : to_float (getField rc col) = none) :
    checkNumeric idx rc col lo hi =
      ([⟨idx, col, "Not a number: " ++ sq ++ getField rc col ++ sq⟩], none) := by
  unfold checkNumeric
  rw [hb]
  simp [h]

theorem numericChecksAux_column {idx : Nat} {rc : Row} {l : List (String × ℚ × ℚ)} {i : Issue}
    (h : i ∈ (numericChecksAux idx rc l).1) : i.column ∈ l.map Prod.fst := by
  induction l with
  | nil => simp [numericChecksAux] at h
  | cons c rest ih =>
      simp only [numericChecksAux, List.mem_append] at h
      rcases h with h | h
      · simp [checkNumeric_column h]
      · simp [ih h]

theorem numericChecksAux_row_number {idx : Nat} {rc : Row} {l : List (String × ℚ × ℚ)} {i : Issue}
    (h : i ∈ (numericChecksAux idx rc l).1) : i.row_number = idx := by
  induction l with
  | nil => simp [numericChecksAux] at h
  | cons c rest ih =>
      simp only [numericChecksAux, List.mem_append] at h
      rcases h with h | h
      · exact checkNumeric_row_number h
      · exact ih h

theorem numericChecksAux_nvGet {idx : Nat} {rc : Row} {l : List (String × ℚ × ℚ)}
    {k : String} {lo hi : ℚ} (hk : List.lookup k l = some (lo, hi)) :
    nvGet (numericChecksAux idx rc l).2 k = (checkNumeric idx rc k lo hi).2 := by
  induction l with
  | nil => simp [List.lookup] at hk
  | cons c rest ih =>
      by_cases h : c.1 = k
      · have hbeq : (k == c.1) = true := by simp [h]
        rw [List.lookup, hbeq] at hk
        simp only [Option.some.injEq] at hk
        subst h
        simp only [numericChecksAux, nvGet, List.lookup, hbeq]
        simp [hk]
      · have hbeq : (k == c.1) = false := by
          simpa [beq_eq_false_iff_ne] using Ne.symm h
        rw [List.lookup, hbeq] at hk
        simp only [numericChecksAux, nvGet, List.lookup, hbeq]
        exact ih hk

theorem numericChecksAux_filter_key {idx : Nat} {rc : Row} {l : List (String × ℚ × ℚ)}
    {k : String} {lo hi : ℚ} (hnd : (l.map Prod.fst).Nodup)
    (hk : List.lookup k l = some (lo, hi)) :
    (numericChecksAux idx rc l).1.filter (fun i => i.column == k) =
      (checkNumeric idx rc k lo hi).1 := by
  induction l with
  | nil => simp [List.lookup] at hk
  | cons c rest ih =>
      simp only [List.map_cons, List.nodup_cons] at hnd
      obtain ⟨hout, hnd'⟩ := hnd
      simp only [numericChecksAux, List.filter_append]
      by_cases h : c.1 = k
      · have hbeq : (k == c.1) = true := by simp [h]
        rw [List.lookup, hbeq] at hk
        simp only [Option.some.injEq] at hk
        subst h
        have h1 : (checkNumeric idx rc c.1 c.2.1 c.2.2).1.filter (fun i => i.column == c.1)
            = (checkNumeric idx rc c.1 c.2.1 c.2.2).1 := by
          rw [List.filter_eq_self]
          intro a ha
          simp [checkNumeric_column ha]
        have h2 : (numericChecksAux idx rc rest).1.filter (fun i => i.column == c.1) = [] := by
          rw [List.filter_eq_nil_iff]
          intro a ha
          have := numericChecksAux_column ha
          simp only [beq_iff_eq]
          intro hcol
          rw [hcol] at this
          exact hout this
        rw [h1, h2, List.append_nil, hk]
      · have hbeq : (k == c.1) = false := by
          simpa [beq_eq_false_iff_ne] using Ne.symm h
        rw [List.lookup, hbeq] at hk
        have h1 : (checkNumeric idx rc c.1 c.2.1 c.2.2).1.filter (fun i => i.column == k) = [] := by
          rw [List.filter_eq_nil_iff]
          intro a ha
          simp [checkNumeric_column ha, h]
        rw [h1, List.nil_append]
        exact ih hnd' hk

theorem stabilityStep_column {idx : Nat} {rc : Row} {nv : List (String × Option ℚ)} {i : Issue}
    (h : i ∈ (stabilityStep idx rc nv).1) : i.column = "stability" := by
  unfold stabilityStep at h
  split at h
  · split at h
    · simp at h
    · dsimp only at h
      split at h
      · simp only [List.mem_singleton] at h
        subst h
        rfl
      · simp at h
  · simp at h

theorem stabilityStep_row_number {idx : Nat} {rc : Row} {nv : List (String × Option ℚ)} {i : Issue}
    (h : i ∈ (stabilityStep idx rc nv).1) : i.row_number = idx := by
  unfold stabilityStep at h
  split at h
  · split at h
    · simp at h
    · dsimp only at h
      split at h
      · simp only [List.mem_singleton] at h
        subst h
        rfl
      · simp at h
  · simp at h

theorem stabilityStep_fill {idx : Nat} {rc : Row} {nv : List (String × Option ℚ)} {c a r : ℚ}
    (hc : nvGet nv "clarity" = some c) (ha : nvGet nv "calm" = some a)
    (hr : nvGet nv "routine" = some r) (hs : nvGet nv "stability" = none) :
    stabilityStep idx rc nv =
      ([], setField rc "stability" (fmtFixed1 (compute_stability c a r))) := by
  unfold stabilityStep
  rw [hc, ha, hr, hs]

theorem stabilityStep_existing {idx : Nat} {rc : Row} {nv : List (String × Option ℚ)} {c a r s : ℚ}
    (hc : nvGet nv "clarity" = some c) (ha : nvGet nv "calm" = some a)
    (hr : nvGet nv "routine" = some r) (hs : nvGet nv "stability" = some s) :
    stabilityStep idx rc nv =
      (if 1 / 10 < |s - compute_stability c a r| then
         [⟨idx, "stability", mismatchMsg s (compute_stability c a r)⟩]
       else [], rc) := by
  unfold stabilityStep
  rw [hc, ha, hr, hs]
  dsimp only
  by_cases hd : 1 / 10 < |s - compute_stability c a r|
  · rw [if_pos hd, if_pos hd]
  · rw [if_neg hd, if_neg hd]

theorem processRow_row_number {idx : Nat} {row : Row} {seen : List String} {i : Issue}
    (h : i ∈ (processRow idx row seen).1) : i.row_number = idx := by
  unfold processRow at h
  dsimp only at h
  simp only [List.mem_append] at h
  rcases h with (h | h) | h
  · split at h
    · simp only [List.mem_singleton] at h
      subst h
      rfl
    · split at h
      · simp only [List.mem_singleton] at h
        subst h
        rfl
      · simp at h
  · exact numericChecksAux_row_number h
  · exact stabilityStep_row_number h

theorem date_not_ranges : ("date" : String) ∉ RANGES.map Prod.fst := by decide

theorem processRow_filter_date (idx : Nat) (row : Row) (seen : List String) :
    (processRow idx row seen).1.filter (fun i => i.column == "date") =
      (if is_blank (some (getField (cleanRow row) "date")) then
         [⟨idx, "date", "Missing date"⟩]
       else if getField (cleanRow row) "date" ∈ seen then
         [⟨idx, "date", "Duplicate date: " ++ getField (cleanRow row) "date"⟩]
       else []) := by
  unfold processRow
  dsimp only
  rw [List.filter_append, List.filter_append]
  have h2 : (numericChecks idx (cleanRow row)).1.filter (fun i => i.column == "date") = [] := by
    rw [List.filter_eq_nil_iff]
    intro a ha
    have hcol := numericChecksAux_column (l := RANGES) ha
    simp only [beq_iff_eq]
    intro hc
    rw [hc] at hcol
    exact date_not_ranges hcol
  have h3 : (stabilityStep idx (cleanRow row) (numericChecks idx (cleanRow row)).2).1.filter
      (fun i => i.column == "date") = [] := by
    rw [List.filter_eq_nil_iff]
    intro a ha
    simp [stabilityStep_column ha]
  rw [h2, h3, List.append_nil, List.append_nil]
  split
  · simp
  · split
    · simp
    · simp

theorem mem_processRow_not_date {idx : Nat} {row : Row} {i : Issue} (seen seen' : List String)
    (hcol : i.column ≠ "date") :
    (i ∈ (processRow idx row seen).1) ↔ (i ∈ (processRow idx row seen').1) := by
  have hdate : ∀ (sn : List String), i ∈ (processRow idx row sn).1 ↔
      i ∈ (numericChecks idx (cleanRow row)).1 ++
        (stabilityStep idx (cleanRow row) (numericChecks idx (cleanRow row)).2).1 := by
    intro sn
    unfold processRow
    dsimp only
    simp only [List.mem_append]
    constructor
    · rintro ((h | h) | h)
      · exfalso
        apply hcol
        split at h
        · simp only [List.mem_singleton] at h
          subst h
          rfl
        · split at h
          · simp only [List.mem_singleton] at h
            subst h
            rfl
          · simp at h
      · exact Or.inl h
      · exact Or.inr h
    · rintro (h | h)
      · exact Or.inl (Or.inr h)
      · exact Or.inr h
  rw [hdate seen, hdate seen']

theorem processRows_row_number_ge {rows : List Row} {idx : Nat} {seen : List String} {i : Issue}
    (h : i ∈ (processRows idx rows seen).1) : idx ≤ i.row_number := by
  induction rows generalizing idx seen with
  | nil => simp [processRows] at h
  | cons r rest ih =>
      simp only [processRows, List.mem_append] at h
      rcases h with h | h
      · rw [processRow_row_number h]
      · have := ih h
        omega

theorem processRows_rows_out_length (idx : Nat) (rows : List Row) (seen : List String) :
    (processRows idx rows seen).2.1.length = rows.length := by
  induction rows generalizing idx seen with
  | nil => rfl
  | cons r rest ih => simp [processRows, ih]

theorem processRows_valid_rows (idx : Nat) (rows : List Row) (seen : List String) :
    (processRows idx rows seen).2.2 = rows.length := by
  induction rows generalizing idx seen with
  | nil => rfl
  | cons r rest ih => simp [processRows, ih]

theorem processRow_out_seen_indep (idx : Nat) (row : Row) (seen seen' : List String) :
    (processRow idx row seen).2.1 = (processRow idx row seen').2.1 := rfl

theorem processRows_rows_out_get {rows : List Row} {k : Nat} {r : Row} (idx : Nat)
    (seen : List String) (hk : rows[k]? = some r) :
    (processRows idx rows seen).2.1[k]? = some ((processRow (idx + k) r []).2.1) := by
  induction rows generalizing idx k seen with
  | nil => simp at hk
  | cons r0 rest ih =>
      cases k with
      | zero =>
          simp only [List.getElem?_cons_zero, Option.some.injEq] at hk
          subst hk
          simp only [processRows, List.getElem?_cons_zero, Option.some.injEq, Nat.add_zero]
          exact processRow_out_seen_indep _ _ seen []
      | succ n =>
          simp only [List.getElem?_cons_succ] at hk
          simp only [processRows, List.getElem?_cons_succ]
          rw [ih _ _ hk]
          rw [show idx + (n + 1) = (idx + 1) + n by omega]

theorem mem_processRows {rows : List Row} {k : Nat} {r : Row} {idx : Nat} {seen : List String}
    {i : Issue} (hk : rows[k]? = some r) (hrn : i.row_number = idx + k)
    (hcol : i.column ≠ "date") :
    (i ∈ (processRows idx rows seen).1) ↔ (i ∈ (processRow (idx + k) r []).1) := by
  induction rows generalizing idx k seen with
  | nil => simp at hk
  | cons r0 rest ih =>
      cases k with
      | zero =>
          simp only [List.getElem?_cons_zero, Option.some.injEq] at hk
          subst hk
          simp only [processRows, List.mem_append, Nat.add_zero]
          constructor
          · rintro (h | h)
            · exact (mem_processRow_not_date seen [] hcol).mp h
            · exfalso
              have := processRows_row_number_ge h
              omega
          · intro h
            exact Or.inl ((mem_processRow_not_date [] seen hcol).mp h)
      | succ n =>
          simp only [List.getElem?_cons_succ] at hk
          simp only [processRows, List.mem_append]
          rw [show idx + (n + 1) = (idx + 1) + n by omega] at hrn ⊢
          constructor
          · rintro (h | h)
            · exfalso
              have := processRow_row_number h
              omega
            · exact (ih hk hrn).mp h
          · intro h
            exact Or.inr ((ih hk hrn).mpr h)

theorem mem_insertSeen {x d : String} {seen : List String} :
    x ∈ insertSeen d seen ↔ x = d ∨ x ∈ seen := by
  unfold insertSeen
  split
  · constructor
    · exact Or.inr
    · rintro (rfl | hx)
      · assumption
      · assumption
  · simp [List.mem_cons]

theorem processRow_seen (idx : Nat) (row : Row) (seen : List String) :
    (processRow idx row seen).2.2 =
      (if is_blank (some (getField (cleanRow row) "date")) then seen
       else insertSeen (getField (cleanRow row) "date") seen) := rfl

theorem filter_rn_col (l : List Issue) (idx n : Nat) (c : String)
    (h : ∀ i ∈ l, i.row_number = idx) :
    l.filter (fun i => i.row_number == n && i.column == c) =
      (if idx = n then l.filter (fun i => i.column == c) else []) := by
  by_cases hn : idx = n
  · subst hn
    rw [if_pos rfl]
    apply List.filter_congr
    intro a ha
    simp [h a ha]
  · rw [if_neg hn, List.filter_eq_nil_iff]
    intro a ha
    simp [h a ha, hn]

theorem processRows_filter_date {rows : List Row} {k : Nat} {r : Row} (idx : Nat)
    (seen : List String) (hk : rows[k]? = some r) :
    (processRows idx rows seen).1.filter
        (fun i => i.row_number == idx + k && i.column == "date") =
      (if is_blank (some (getField (cleanRow r) "date")) then
         [⟨idx + k, "date", "Missing date"⟩]
       else if getField (cleanRow r) "date" ∈ seen ∨
           getField (cleanRow r) "date" ∈
             (rows.take k).map (fun r2 => getField (cleanRow r2) "date") then
         [⟨idx + k, "date", "Duplicate date: " ++ getField (cleanRow r) "date"⟩]
       else []) := by
  induction rows generalizing idx k seen with
  | nil => simp at hk
  | cons r0 rest ih =>
      simp only [processRows, List.filter_append]
      cases k with
      | zero =>
          simp only [List.getElem?_cons_zero, Option.some.injEq] at hk
          subst hk
          rw [filter_rn_col _ idx (idx + 0) "date" (fun i h => processRow_row_number h)]
          rw [if_pos (by omega)]
          have htail : (processRows (idx + 1) rest (processRow idx r0 seen).2.2).1.filter
              (fun i => i.row_number == idx + 0 && i.column == "date") = [] := by
            rw [List.filter_eq_nil_iff]
            intro a ha
            have := processRows_row_number_ge ha
            simp only [Bool.and_eq_true, beq_iff_eq, not_and]
            intro hrn
            omega
          rw [processRow_filter_date, htail, List.append_nil]
          simp only [List.take_zero, List.map_nil, List.not_mem_nil, or_false, Nat.add_zero]
      | succ n =>
          simp only [List.getElem?_cons_succ] at hk
          have hhead : (processRow idx r0 seen).1.filter
              (fun i => i.row_number == idx + (n + 1) && i.column == "date") = [] := by
            rw [List.filter_eq_nil_iff]
            intro a ha
            have := processRow_row_number ha
            simp only [Bool.and_eq_true, beq_iff_eq, not_and]
            intro hrn
            omega
          rw [hhead, List.nil_append]
          rw [show idx + (n + 1) = (idx + 1) + n by omega]
          rw [ih _ _ hk]
          rw [List.take_succ_cons, List.map_cons]
          by_cases hb : is_blank (some (getField (cleanRow r) "date")) = true
          · rw [if_pos hb, if_pos hb]
          · rw [if_neg hb, if_neg hb]
            have hiff : (getField (cleanRow r) "date" ∈ (processRow idx r0 seen).2.2 ∨
                getField (cleanRow r) "date" ∈
                  (rest.take n).map (fun r2 => getField (cleanRow r2) "date")) ↔
                (getField (cleanRow r) "date" ∈ seen ∨
                 getField (cleanRow r) "date" ∈ getField (cleanRow r0) "date" ::
                   (rest.take n).map (fun r2 => getField (cleanRow r2) "date")) := by
              rw [processRow_seen]
              by_cases hb0 : is_blank (some (getField (cleanRow r0) "date")) = true
              · rw [if_pos hb0]
                have hne : getField (cleanRow r) "date" ≠ getField (cleanRow r0) "date" := by
                  intro he
                  rw [he] at hb
                  exact hb hb0
                simp only [List.mem_cons]
                constructor
                · rintro (h | h)
                  · exact Or.inl h
                  · exact Or.inr (Or.inr h)
                · rintro (h | h | h)
                  · exact Or.inl h
                  · exact absurd h hne
                  · exact Or.inr h
              · rw [if_neg hb0]
                simp only [mem_insertSeen, List.mem_cons]
                constructor
                · rintro ((h | h) | h)
                  · exact Or.inr (Or.inl h)
                  · exact Or.inl h
                  · exact Or.inr (Or.inr h)
                · rintro (h | h | h)
                  · exact Or.inl (Or.inr h)
                  · exact Or.inl (Or.inl h)
                  · exact Or.inr h
            rw [if_congr hiff rfl rfl]

/-! ## Bridging lemmas at the `validate_csv` level -/

theorem validate_csv_issues (header : List String) (rows : List Row) (wb : Bool) :
    (validate_csv (some header) rows wb).1.issues =
      (validate_columns header).map (fun m => ⟨0, "header", m⟩) ++ (processRows 2 rows []).1 := rfl

theorem validate_csv_rows_out (header : List String) (rows : List Row) (wb : Bool) :
    (validate_csv (some header) rows wb).1.rows_out = (processRows 2 rows []).2.1 := rfl

theorem validate_csv_valid_rows (header : List String) (rows : List Row) (wb : Bool) :
    (validate_csv (some header) rows wb).1.valid_rows = (processRows 2 rows []).2.2 := rfl

theorem ranges_keys_nodup : (RANGES.map Prod.fst).Nodup := by decide

theorem lookup_clarity : List.lookup "clarity" RANGES = some (0, 10) := rfl

theorem lookup_calm : List.lookup "calm" RANGES = some (0, 10) := rfl

theorem lookup_routine : List.lookup "routine" RANGES = some (0, 10) := rfl

theorem lookup_stability : List.lookup "stability" RANGES = some (0, 10) := rfl

theorem checkNumeric_val {idx : Nat} {rc : Row} {col : String} {lo hi v : ℚ}
    (h : to_float (getField rc col) = some v) :
    (checkNumeric idx rc col lo hi).2 = some v := by
  rw [checkNumeric_parsed h]

theorem processRow_column_mem {idx : Nat} {row : Row} {seen : List String} {i : Issue}
    (h : i ∈ (processRow idx row seen).1) :
    i.column = "date" ∨ i ∈ (numericChecks idx (cleanRow row)).1 ∨
      i ∈ (stabilityStep idx (cleanRow row) (numericChecks idx (cleanRow row)).2).1 := by
  unfold processRow at h
  dsimp only at h
  simp only [List.mem_append] at h
  rcases h with (h | h) | h
  · left
    split at h
    · simp only [List.mem_singleton] at h
      subst h
      rfl
    · split at h
      · simp only [List.mem_singleton] at h
        subst h
        rfl
      · simp at h
  · right
    left
    exact h
  · right
    right
    exact h

theorem mem_validate_csv_issues {header : List String} {rows : List Row} {wb : Bool}
    {k : Nat} {r : Row} {i : Issue} (hk : rows[k]? = some r) (hrn : i.row_number = 2 + k)
    (hcol : i.column ≠ "date") :
    (i ∈ (validate_csv (some header) rows wb).1.issues) ↔ (i ∈ (processRow (2 + k) r []).1) := by
  rw [validate_csv_issues]
  simp only [List.mem_append]
  constructor
  · rintro (h | h)
    · exfalso
      simp only [List.mem_map] at h
      obtain ⟨m, _, hm⟩ := h
      have : i.row_number = 0 := by rw [← hm]
      omega
    · exact (mem_processRows hk hrn hcol).mp h
  · intro h
    exact Or.inr ((mem_processRows hk hrn hcol).mpr h)

theorem validate_csv_filter_pos {header : List String} {rows : List Row} {wb : Bool}
    (n : Nat) (hn : 0 < n) (c : String) :
    (validate_csv (some header) rows wb).1.issues.filter
        (fun i => i.row_number == n && i.column == c) =
      (processRows 2 rows []).1.filter (fun i => i.row_number == n && i.column == c) := by
  rw [validate_csv_issues, List.filter_append]
  have hh : ((validate_columns header).map (fun m => (⟨0, "header", m⟩ : Issue))).filter
      (fun i => i.row_number == n && i.column == c) = [] := by
    rw [List.filter_eq_nil_iff]
    intro a ha
    simp only [List.mem_map] at ha
    obtain ⟨m, _, hm⟩ := ha
    have : a.row_number = 0 := by rw [← hm]
    simp only [Bool.and_eq_true, beq_iff_eq, not_and]
    intro hrn
    omega
  rw [hh, List.nil_append]

theorem validate_csv_filter_zero (header : List String) (rows : List Row) (wb : Bool) :
    (validate_csv (some header) rows wb).1.issues.filter (fun i => i.row_number == 0) =
      (validate_columns header).map (fun m => ⟨0, "header", m⟩) := by
  rw [validate_csv_issues, List.filter_append]
  have hh : ((validate_columns header).map (fun m => (⟨0, "header", m⟩ : Issue))).filter
      (fun i => i.row_number == 0) =
      (validate_columns header).map (fun m => ⟨0, "header", m⟩) := by
    rw [List.filter_eq_self]
    intro a ha
    simp only [List.mem_map] at ha
    obtain ⟨m, _, hm⟩ := ha
    have : a.row_number = 0 := by rw [← hm]
    simp [this]
  have ht : ((processRows 2 rows []).1).filter (fun i => i.row_number == 0) = [] := by
    rw [List.filter_eq_nil_iff]
    intro a ha
    have := processRows_row_number_ge ha
    simp only [beq_iff_eq]
    omega
  rw [hh, ht, List.append_nil]

theorem nv_col {idx : Nat} {rc : Row} {col : String} {lo hi : ℚ}
    (hlookup : List.lookup col RANGES = some (lo, hi)) :
    nvGet (numericChecks idx rc).2 col = (checkNumeric idx rc col lo hi).2 := by
  unfold numericChecks
  exact numericChecksAux_nvGet hlookup

theorem numericChecks_filter_key {idx : Nat} {rc : Row} {k : String} {lo hi : ℚ}
    (hk : List.lookup k RANGES = some (lo, hi)) :
    (numericChecks idx rc).1.filter (fun i => i.column == k) =
      (checkNumeric idx rc k lo hi).1 := by
  unfold numericChecks
  exact numericChecksAux_filter_key ranges_keys_nodup hk

theorem data_append (a b : String) : (a ++ b).data = a.data ++ b.data := by
  cases a
  cases b
  rfl

theorem append_ne_append {p q x y : String} (hp : p.data.take 1 ≠ q.data.take 1)
    (hlp : 1 ≤ p.data.length) (hlq : 1 ≤ q.data.length) : p ++ x ≠ q ++ y := by
  intro h
  apply hp
  have hd := congrArg String.data h
  rw [data_append, data_append] at hd
  have htake := congrArg (List.take 1) hd
  rwa [List.take_append_of_le_length hlp, List.take_append_of_le_length hlq] at htake

theorem mismatchMsg_ne_range (s c lo hi v : ℚ) :
    mismatchMsg s c ≠
      "Out of range " ++ fmtFloat lo ++ "–" ++ fmtFloat hi ++ ": " ++ fmtFloat v := by
  unfold mismatchMsg
  simp only [String.append_assoc]
  exact append_ne_append (by decide) (by decide) (by decide)

/-! ## Claim theorems -/

/-- **C1.** For every data row whose `clarity`, `calm` and `routine` fields all
have a defined numeric value, and whose `stability` field is blank (numeric
value "none"), `validate_csv` fills the cleaned row's `stability` field with
`compute_stability = round((clarity+calm+routine)/3, 1)` formatted with
exactly one decimal place, and raises no issue on the `stability` column for
that row. -/
theorem C1_stability_silent_fill {header : List String} {rows : List Row} {wb : Bool}
    {k : Nat} {r : Row} {c a rt : ℚ}
    (hk : rows[k]? = some r)
    (hc : to_float (getField (cleanRow r) "clarity") = some c)
    (ha : to_float (getField (cleanRow r) "calm") = some a)
    (hr : to_float (getField (cleanRow r) "routine") = some rt)
    (hs : is_blank (some (getField (cleanRow r) "stability")) = true) :
    (∃ out, (validate_csv (some header) rows wb).1.rows_out[k]? = some out ∧
      getField out "stability" = fmtFixed1 (compute_stability c a rt)) ∧
    (∀ i ∈ (validate_csv (some header) rows wb).1.issues,
      i.row_number = 2 + k → i.column ≠ "stability") := by
  have hcnv : nvGet (numericChecks (2 + k) (cleanRow r)).2 "clarity" = some c := by
    rw [nv_col lookup_clarity, checkNumeric_val hc]
  have hanv : nvGet (numericChecks (2 + k) (cleanRow r)).2 "calm" = some a := by
    rw [nv_col lookup_calm, checkNumeric_val ha]
  have hrnv : nvGet (numericChecks (2 + k) (cleanRow r)).2 "routine" = some rt := by
    rw [nv_col lookup_routine, checkNumeric_val hr]
  have hsnv : nvGet (numericChecks (2 + k) (cleanRow r)).2 "stability" = none := by
    rw [nv_col lookup_stability, checkNumeric_blank hs]
  have hfill := @stabilityStep_fill (2 + k) (cleanRow r) _ c a rt hcnv hanv hrnv hsnv
  constructor
  · refine ⟨setField (cleanRow r) "stability" (fmtFixed1 (compute_stability c a rt)), ?_,
      getField_setField _ _ _⟩
    rw [validate_csv_rows_out, processRows_rows_out_get 2 [] hk]
    have hout : (processRow (2 + k) r []).2.1 =
        setField (cleanRow r) "stability" (fmtFixed1 (compute_stability c a rt)) := by
      show (stabilityStep (2 + k) (cleanRow r) (numericChecks (2 + k) (cleanRow r)).2).2 = _
      rw [hfill]
    rw [hout]
  · intro i hi hrn hcol
    have hnd : i.column ≠ "date" := by
      rw [hcol]
      decide
    have hm := (mem_validate_csv_issues hk hrn hnd).mp hi
    rcases processRow_column_mem hm with hdd | hnum | hstab
    · rw [hcol] at hdd
      exact absurd hdd (by decide)
    · have hfilt : i ∈ (numericChecks (2 + k) (cleanRow r)).1.filter
          (fun j => j.column == "stability") :=
        List.mem_filter.mpr ⟨hnum, by simp [hcol]⟩
      rw [numericChecks_filter_key lookup_stability, checkNumeric_blank hs] at hfilt
      simp at hfilt
    · rw [hfill] at hstab
      simp at hstab

/-- **C2.** For every data row whose `clarity`, `calm`, `routine` and
`stability` fields all have defined numeric values, `validate_csv` emits the
stability-mismatch issue (`"Does not match (clarity+calm+routine)/3.
Existing=⟨existing:.1f⟩, Computed=⟨computed:.1f⟩"`) for that row if and only
if the absolute difference between the existing and the computed stability
exceeds 0.1; in particular a difference of exactly 0.1 raises nothing. -/
theorem C2_stability_mismatch_iff {header : List String} {rows : List Row} {wb : Bool}
    {k : Nat} {r : Row} {c a rt s : ℚ}
    (hk : rows[k]? = some r)
    (hc : to_float (getField (cleanRow r) "clarity") = some c)
    (ha : to_float (getField (cleanRow r) "calm") = some a)
    (hr : to_float (getField (cleanRow r) "routine") = some rt)
    (hs : to_float (getField (cleanRow r) "stability") = some s) :
    ((⟨2 + k, "stability", mismatchMsg s (compute_stability c a rt)⟩ : Issue) ∈
        (validate_csv (some header) rows wb).1.issues) ↔
      1 / 10 < |s - compute_stability c a rt| := by
  have hcnv : nvGet (numericChecks (2 + k) (cleanRow r)).2 "clarity" = some c := by
    rw [nv_col lookup_clarity, checkNumeric_val hc]
  have hanv : nvGet (numericChecks (2 + k) (cleanRow r)).2 "calm" = some a := by
    rw [nv_col lookup_calm, checkNumeric_val ha]
  have hrnv : nvGet (numericChecks (2 + k) (cleanRow r)).2 "routine" = some rt := by
    rw [nv_col lookup_routine, checkNumeric_val hr]
  have hsnv : nvGet (numericChecks (2 + k) (cleanRow r)).2 "stability" = some s := by
    rw [nv_col lookup_stability, checkNumeric_val hs]
  have hstep := @stabilityStep_existing (2 + k) (cleanRow r) _ c a rt s hcnv hanv hrnv hsnv
  rw [mem_validate_csv_issues hk rfl (show ("stability" : String) ≠ "date" by decide)]
  constructor
  · intro hm
    rcases processRow_column_mem hm with hdd | hnum | hstab
    · exact absurd hdd (show ¬("stability" : String) = "date" by decide)
    · exfalso
      have hfilt : (⟨2 + k, "stability", mismatchMsg s (compute_stability c a rt)⟩ : Issue) ∈
          (numericChecks (2 + k) (cleanRow r)).1.filter (fun j => j.column == "stability") :=
        List.mem_filter.mpr ⟨hnum, by simp⟩
      rw [numericChecks_filter_key lookup_stability, checkNumeric_parsed hs] at hfilt
      dsimp only at hfilt
      have hint : ¬(("stability" : String) ∈ INT_FIELDS ∧ s.den ≠ 1) :=
        fun hcond => absurd hcond.1 (by decide)
      rw [if_neg hint, List.append_nil] at hfilt
      split at hfilt
      · simp only [List.mem_singleton, Issue.mk.injEq] at hfilt
        exact absurd hfilt.2.2 (mismatchMsg_ne_range _ _ _ _ _)
      · simp at hfilt
    · rw [hstep] at hstab
      by_cases hd : 1 / 10 < |s - compute_stability c a rt|
      · exact hd
      · rw [if_neg hd] at hstab
        simp at hstab
  · intro hd
    have hmem : (⟨2 + k, "stability", mismatchMsg s (compute_stability c a rt)⟩ : Issue) ∈
        (stabilityStep (2 + k) (cleanRow r) (numericChecks (2 + k) (cleanRow r)).2).1 := by
      rw [hstep, if_pos hd]
      simp
    unfold processRow
    dsimp only
    simp only [List.mem_append]
    exact Or.inr hmem

theorem processRow_filter_nondate (idx : Nat) (row : Row) (seen : List String) {col : String}
    (hcol : col ≠ "date") :
    (processRow idx row seen).1.filter (fun i => i.column == col) =
      (numericChecks idx (cleanRow row)).1.filter (fun i => i.column == col) ++
      (stabilityStep idx (cleanRow row) (numericChecks idx (cleanRow row)).2).1.filter
        (fun i => i.column == col) := by
  unfold processRow
  dsimp only
  rw [List.filter_append, List.filter_append]
  have hd : (if is_blank (some (getField (cleanRow row) "date")) then
        [(⟨idx, "date", "Missing date"⟩ : Issue)]
      else if getField (cleanRow row) "date" ∈ seen then
        [⟨idx, "date", "Duplicate date: " ++ getField (cleanRow row) "date"⟩]
      else []).filter (fun i => i.column == col) = [] := by
    rw [List.filter_eq_nil_iff]
    intro a ha
    have hac : a.column = "date" := by
      split at ha
      · simp only [List.mem_singleton] at ha
        subst ha
        rfl
      · split at ha
        · simp only [List.mem_singleton] at ha
          subst ha
          rfl
        · simp at ha
    simp [hac, Ne.symm hcol]
  rw [hd, List.nil_append]

theorem processRows_filter_nondate {rows : List Row} {k : Nat} {r : Row} (idx : Nat)
    (seen : List String) {col : String} (hk : rows[k]? = some r) (hcol : col ≠ "date") :
    (processRows idx rows seen).1.filter (fun i => i.row_number == idx + k && i.column == col) =
      (processRow (idx + k) r []).1.filter (fun i => i.column == col) := by
  induction rows generalizing idx k seen with
  | nil => simp at hk
  | cons r0 rest ih =>
      simp only [processRows, List.filter_append]
      cases k with
      | zero =>
          simp only [List.getElem?_cons_zero, Option.some.injEq] at hk
          subst hk
          rw [filter_rn_col _ idx (idx + 0) col (fun i h => processRow_row_number h)]
          rw [if_pos (by omega)]
          have htail : (processRows (idx + 1) rest (processRow idx r0 seen).2.2).1.filter
              (fun i => i.row_number == idx + 0 && i.column == col) = [] := by
            rw [List.filter_eq_nil_iff]
            intro a ha
            have := processRows_row_number_ge ha
            simp only [Bool.and_eq_true, beq_iff_eq, not_and]
            intro hrn
            omega
          rw [htail, List.append_nil]
          rw [processRow_filter_nondate idx r0 seen hcol,
            processRow_filter_nondate (idx + 0) r0 [] hcol]
          rw [show idx + 0 = idx by omega]
      | succ n =>
          simp only [List.getElem?_cons_succ] at hk
          have hhead : (processRow idx r0 seen).1.filter
              (fun i => i.row_number == idx + (n + 1) && i.column == col) = [] := by
            rw [List.filter_eq_nil_iff]
            intro a ha
            have := processRow_row_number ha
            simp only [Bool.and_eq_true, beq_iff_eq, not_and]
            intro hrn
            omega
          rw [hhead, List.nil_append]
          rw [show idx + (n + 1) = (idx + 1) + n by omega]
          exact ih _ _ hk

/-- **C3.** Within one file, a data row with a blank (empty or
whitespace-only after stripping) date produces exactly the single issue
`Missing date`; a row with a non-blank date that already occurred (as the
same stripped string) in an earlier row produces exactly the single issue
`Duplicate date: <value>`; and a row whose non-blank date did not occur
earlier produces no date issue at all. -/
theorem C3_date_checks {header : List String} {rows : List Row} {wb : Bool} {k : Nat} {r : Row}
    (hk : rows[k]? = some r) :
    (validate_csv (some header) rows wb).1.issues.filter
        (fun i => i.row_number == 2 + k && i.column == "date") =
      (if is_blank (some (getField (cleanRow r) "date")) then
         [⟨2 + k, "date", "Missing date"⟩]
       else if getField (cleanRow r) "date" ∈
           (rows.take k).map (fun r2 => getField (cleanRow r2) "date") then
         [⟨2 + k, "date", "Duplicate date: " ++ getField (cleanRow r) "date"⟩]
       else []) := by
  rw [validate_csv_filter_pos (2 + k) (by omega) "date", processRows_filter_date 2 [] hk]
  simp only [List.not_mem_nil, false_or]

/-- **C5.** For every data row and every integer-only ranged column, a value
that parses with a nonzero fractional part yields exactly the `Expected
integer` issue in addition to (and independently of) the range check: the
issues `validate_csv` reports for that row and column are exactly the range
issue (present when and only when the value is out of range) followed by the
`Expected integer` issue. -/
theorem C5_integer_check {header : List String} {rows : List Row} {wb : Bool}
    {k : Nat} {r : Row} {col : String} {lo hi v : ℚ}
    (hk : rows[k]? = some r)
    (hl : List.lookup col RANGES = some (lo, hi))
    (hint : col ∈ INT_FIELDS)
    (hv : to_float (getField (cleanRow r) col) = some v)
    (hfrac : v.den ≠ 1) :
    (validate_csv (some header) rows wb).1.issues.filter
        (fun i => i.row_number == 2 + k && i.column == col) =
      (if v < lo ∨ hi < v then
         [⟨2 + k, col, "Out of range " ++ fmtFloat lo ++ "–" ++ fmtFloat hi ++ ": " ++ fmtFloat v⟩]
       else []) ++
      [⟨2 + k, col, "Expected integer, got: " ++ fmtFloat v⟩] := by
  have hcases : col = "sleep_quality" ∨ col = "exercise_minutes" ∨ col = "caffeine_units" ∨
      col = "social_minutes" ∨ col = "stressors" := by
    simpa [INT_FIELDS] using hint
  have hnd : col ≠ "date" := by
    rcases hcases with h | h | h | h | h <;> subst h <;> decide
  have hns : col ≠ "stability" := by
    rcases hcases with h | h | h | h | h <;> subst h <;> decide
  rw [validate_csv_filter_pos (2 + k) (by omega) col,
    processRows_filter_nondate 2 [] hk hnd,
    processRow_filter_nondate (2 + k) r [] hnd]
  have hstab : (stabilityStep (2 + k) (cleanRow r)
      (numericChecks (2 + k) (cleanRow r)).2).1.filter (fun i => i.column == col) = [] := by
    rw [List.filter_eq_nil_iff]
    intro a ha
    simp [stabilityStep_column ha, Ne.symm hns]
  rw [hstab, List.append_nil, numericChecks_filter_key hl, checkNumeric_parsed hv]
  dsimp only
  rw [if_pos (show col ∈ INT_FIELDS ∧ v.den ≠ 1 from ⟨hint, hfrac⟩)]

/-- **C6.** For every data row and every ranged column, a value that parses
but lies outside the inclusive `[lo, hi]` range both produces the
`Out of range` issue and is still recorded as the field's numeric value
(so it still participates in downstream computation). -/
theorem C6_out_of_range_recorded {header : List String} {rows : List Row} {wb : Bool}
    {k : Nat} {r : Row} {col : String} {lo hi v : ℚ}
    (hk : rows[k]? = some r)
    (hl : List.lookup col RANGES = some (lo, hi))
    (hv : to_float (getField (cleanRow r) col) = some v)
    (hout : v < lo ∨ hi < v) :
    ((⟨2 + k, col,
        "Out of range " ++ fmtFloat lo ++ "–" ++ fmtFloat hi ++ ": " ++ fmtFloat v⟩ : Issue) ∈
        (validate_csv (some header) rows wb).1.issues) ∧
    nvGet (numericChecks (2 + k) (cleanRow r)).2 col = some v := by
  have hnd : col ≠ "date" := by
    intro h
    subst h
    rw [show List.lookup "date" RANGES = none from rfl] at hl
    exact Option.noConfusion hl
  constructor
  · have hmemchk : (⟨2 + k, col,
        "Out of range " ++ fmtFloat lo ++ "–" ++ fmtFloat hi ++ ": " ++ fmtFloat v⟩ : Issue) ∈
        (numericChecks (2 + k) (cleanRow r)).1.filter (fun i => i.column == col) := by
      rw [numericChecks_filter_key hl, checkNumeric_parsed hv]
      rw [if_pos hout]
      simp
    have hnum := (List.mem_filter.mp hmemchk).1
    rw [mem_validate_csv_issues hk rfl hnd]
    unfold processRow
    dsimp only
    simp only [List.mem_append]
    exact Or.inl (Or.inr hnum)
  · rw [nv_col hl, checkNumeric_val hv]

/-- **C10.** For every data row whose `clarity`, `calm` and `routine` fields
parse to numeric values and whose `stability` field is non-blank but fails to
parse, `validate_csv` records a `Not a number` issue on the `stability`
column and still overwrites the cleaned row's `stability` field with the
computed value formatted to one decimal place (the fill fires whenever the
numeric value is `none`, not only when the field is blank). -/
theorem C10_unparsable_stability_filled {header : List String} {rows : List Row} {wb : Bool}
    {k : Nat} {r : Row} {c a rt : ℚ}
    (hk : rows[k]? = some r)
    (hc : to_float (getField (cleanRow r) "clarity") = some c)
    (ha : to_float (getField (cleanRow r) "calm") = some a)
    (hr : to_float (getField (cleanRow r) "routine") = some rt)
    (hb : is_blank (some (getField (cleanRow r) "stability")) = false)
    (hs : to_float (getField (cleanRow r) "stability") = none) :
    ((⟨2 + k, "stability",
        "Not a number: " ++ sq ++ getField (cleanRow r) "stability" ++ sq⟩ : Issue) ∈
        (validate_csv (some header) rows wb).1.issues) ∧
    (∃ out, (validate_csv (some header) rows wb).1.rows_out[k]? = some out ∧
      getField out "stability" = fmtFixed1 (compute_stability c a rt)) := by
  have hcnv : nvGet (numericChecks (2 + k) (cleanRow r)).2 "clarity" = some c := by
    rw [nv_col lookup_clarity, checkNumeric_val hc]
  have hanv : nvGet (numericChecks (2 + k) (cleanRow r)).2 "calm" = some a := by
    rw [nv_col lookup_calm, checkNumeric_val ha]
  have hrnv : nvGet (numericChecks (2 + k) (cleanRow r)).2 "routine" = some rt := by
    rw [nv_col lookup_routine, checkNumeric_val hr]
  have hsnv : nvGet (numericChecks (2 + k) (cleanRow r)).2 "stability" = none := by
    rw [nv_col lookup_stability, checkNumeric_unparsable hb hs]
  have hfill := @stabilityStep_fill (2 + k) (cleanRow r) _ c a rt hcnv hanv hrnv hsnv
  constructor
  · have hmemchk : (⟨2 + k, "stability",
        "Not a number: " ++ sq ++ getField (cleanRow r) "stability" ++ sq⟩ : Issue) ∈
        (numericChecks (2 + k) (cleanRow r)).1.filter (fun i => i.column == "stability") := by
      rw [numericChecks_filter_key lookup_stability, checkNumeric_unparsable hb hs]
      simp
    have hnum := (List.mem_filter.mp hmemchk).1
    rw [mem_validate_csv_issues hk rfl (show ("stability" : String) ≠ "date" by decide)]
    unfold processRow
    dsimp only
    simp only [List.mem_append]
    exact Or.inl (Or.inr hnum)
  · refine ⟨setField (cleanRow r) "stability" (fmtFixed1 (compute_stability c a rt)), ?_,
      getField_setField _ _ _⟩
    rw [validate_csv_rows_out, processRows_rows_out_get 2 [] hk]
    have hout : (processRow (2 + k) r []).2.1 =
        setField (cleanRow r) "stability" (fmtFixed1 (compute_stability c a rt)) := by
      show (stabilityStep (2 + k) (cleanRow r) (numericChecks (2 + k) (cleanRow r)).2).2 = _
      rw [hfill]
    rw [hout]

/-- **C4.** Header validation: all missing required columns are reported
together in one issue at row 0, column `header`, and all extra columns are
reported together in one such issue; column order is never checked, so a
header containing exactly the required columns (as a set) produces zero
header issues. -/
theorem C4_header_validation (header : List String) (rows : List Row) (wb : Bool) :
    ((validate_csv (some header) rows wb).1.issues.filter (fun i => i.row_number == 0) =
      (if missingColumns header = [] then []
       else [⟨0, "header", "Missing columns: " ++ pyStrList (missingColumns header)⟩]) ++
      (if extraColumns header = [] then []
       else [⟨0, "header", "Unexpected extra columns: " ++ pyStrList (extraColumns header)⟩])) ∧
    ((∀ c, c ∈ header ↔ c ∈ REQUIRED_COLUMNS) →
      (validate_csv (some header) rows wb).1.issues.filter (fun i => i.row_number == 0) = []) := by
  have h1 : (validate_csv (some header) rows wb).1.issues.filter (fun i => i.row_number == 0) =
      (if missingColumns header = [] then []
       else [(⟨0, "header", "Missing columns: " ++ pyStrList (missingColumns header)⟩ : Issue)]) ++
      (if extraColumns header = [] then []
       else [⟨0, "header", "Unexpected extra columns: " ++ pyStrList (extraColumns header)⟩]) := by
    rw [validate_csv_filter_zero]
    unfold validate_columns
    rw [List.map_append]
    congr 1 <;> split <;> simp
  refine ⟨h1, fun hset => ?_⟩
  have hm : missingColumns header = [] := by
    unfold missingColumns
    rw [List.filter_eq_nil_iff]
    intro c hc
    simp [List.contains, (hset c).mpr hc]
  have he : extraColumns header = [] := by
    unfold extraColumns
    rw [List.filter_eq_nil_iff]
    intro c hc
    simp [List.contains, (hset c).mp hc]
  rw [h1, hm, he]
  simp

theorem getField_projection (cols : List String) (r : Row) (c : String) :
    getField (cols.map (fun c2 => (c2, getField r c2))) c =
      (if c ∈ cols then getField r c else "") := by
  induction cols with
  | nil => simp [getField, List.lookup]
  | cons c0 rest ih =>
      by_cases h : c0 = c
      · subst h
        have hbeq : (c0 == c0) = true := by simp
        simp [getField, List.lookup, hbeq, List.mem_cons]
      · have hbeq : (c == c0) = false := by
          simpa [beq_eq_false_iff_ne] using Ne.symm h
        rw [List.map_cons]
        unfold getField at ih ⊢
        rw [List.lookup, hbeq]
        dsimp only
        rw [ih]
        exact (if_congr (by simp [List.mem_cons, Ne.symm h]) rfl rfl).symm

/-- **C7.** When write-back is requested, `validate_csv` writes the cleaned
rows (regardless of how many issues were found): the output header is the
fixed required-column list, each written row carries exactly the twelve
required columns in canonical order, there is one written row per cleaned
row, and each written value is the cleaned row's value for required columns
and drops everything else (absent required columns become the empty
string). -/
theorem C7_write_back (header : List String) (rows : List Row) :
    ((validate_csv (some header) rows true).2 =
      some (REQUIRED_COLUMNS, writeBackRows (validate_csv (some header) rows true).1.rows_out)) ∧
    (∀ w ∈ writeBackRows (validate_csv (some header) rows true).1.rows_out,
      w.map Prod.fst = REQUIRED_COLUMNS) ∧
    ((writeBackRows (validate_csv (some header) rows true).1.rows_out).length = rows.length) ∧
    (∀ (k : Nat) (r2 : Row), (validate_csv (some header) rows true).1.rows_out[k]? = some r2 →
      ∃ w, (writeBackRows (validate_csv (some header) rows true).1.rows_out)[k]? = some w ∧
        ∀ c, getField w c = (if c ∈ REQUIRED_COLUMNS then getField r2 c else "")) := by
  refine ⟨rfl, ?_, ?_, ?_⟩
  · intro w hw
    unfold writeBackRows at hw
    simp only [List.mem_map] at hw
    obtain ⟨r2, _, hr2⟩ := hw
    rw [← hr2, List.map_map]
    have hcomp : (Prod.fst ∘ fun c => (c, getField r2 c)) = (id : String → String) := rfl
    rw [hcomp, List.map_id]
  · unfold writeBackRows
    rw [List.length_map, validate_csv_rows_out, processRows_rows_out_length]
  · intro k r2 hk
    refine ⟨REQUIRED_COLUMNS.map (fun c => (c, getField r2 c)), ?_, fun c => getField_projection _ _ _⟩
    unfold writeBackRows
    rw [List.getElem?_map, hk]
    rfl

/-- **C8.** For a file with no header row at all, `validate_csv` returns
exactly one issue (row 0, empty column, `"CSV has no header row"`) together
with a row count of 0, an empty cleaned-row list, and no write-back output
even when requested. -/
theorem C8_no_header (rows : List Row) (wb : Bool) :
    validate_csv none rows wb = (⟨[⟨0, "", "CSV has no header row"⟩], [], 0⟩, none) := rfl

/-- **C9.** For every file with a header, every data row contributes exactly
one cleaned row, in order, and the returned row count equals the number of
data rows — no issue ever blocks or skips the processing of a row. -/
theorem C9_row_count (header : List String) (rows : List Row) (wb : Bool) :
    ((validate_csv (some header) rows wb).1.rows_out.length = rows.length) ∧
    ((validate_csv (some header) rows wb).1.valid_rows = rows.length) ∧
    (∀ (k : Nat) (r : Row), rows[k]? = some r →
      (validate_csv (some header) rows wb).1.rows_out[k]? =
        some ((processRow (2 + k) r []).2.1)) := by
  refine ⟨?_, ?_, ?_⟩
  · rw [validate_csv_rows_out]
    exact processRows_rows_out_length 2 rows []
  · rw [validate_csv_valid_rows]
    exact processRows_valid_rows 2 rows []
  · intro k r hk
    rw [validate_csv_rows_out]
    exact processRows_rows_out_get 2 [] hk

/-! ## Concrete inputs for the witnesses -/

/-- A fully valid data row with a blank `stability` field. -/
def row0 : Row :=
  [("date", "2024-01-01"), ("clarity", "8"), ("calm", "7"), ("routine", "9"),
   ("stability", ""), ("sleep_hours", "7"), ("sleep_quality", "4"),
   ("exercise_minutes", "30"), ("caffeine_units", "1"), ("social_minutes", "60"),
   ("stressors", "1"), ("notes", "")]

/-- A row whose stability differs from the computed value by exactly 0.1. -/
def rowD1 : Row :=
  [("date", "2024-01-02"), ("clarity", "5"), ("calm", "5"), ("routine", "5"),
   ("stability", "5.1")]

/-- A row whose stability differs from the computed value by 0.3. -/
def rowD2 : Row :=
  [("date", "2024-01-02"), ("clarity", "5"), ("calm", "5"), ("routine", "5"),
   ("stability", "5.3")]

/-- First occurrence of a date. -/
def rowA : Row := [("date", "2024-01-01")]

/-- Second occurrence of the same date (stripping applies first). -/
def rowB : Row := [("date", "2024-01-01 ")]

/-- A row with a whitespace-only date. -/
def rowC : Row := [("date", "  ")]

/-- A row with a fractional value in an integer-only column. -/
def rowEx : Row := [("date", "2024-01-03"), ("exercise_minutes", "30.5")]

/-- A row with an out-of-range clarity. -/
def rowCl : Row :=
  [("date", "2024-01-05"), ("clarity", "12"), ("calm", "7"), ("routine", "9"),
   ("stability", "")]

/-- A row carrying an undeclared `mood` column. -/
def rowMood : Row := [("date", "2024-01-04"), ("mood", "x")]

/-- A row whose stability is non-blank but not a number. -/
def rowNaN : Row :=
  [("date", "2024-01-06"), ("clarity", "8"), ("calm", "7"), ("routine", "9"),
   ("stability", "abc")]

/-! ## Witnesses -/

set_option maxRecDepth 8000

/-- Witness for C1 on `row0`: stability is blank, the cleaned row gets
`"8.0"` and no stability issue is raised. -/
theorem C1_stability_silent_fill_witness :
    is_blank (some (getField (cleanRow row0) "stability")) = true ∧
    ((∃ out, (validate_csv (some REQUIRED_COLUMNS) [row0] true).1.rows_out[0]? = some out ∧
        getField out "stability" = fmtFixed1 (compute_stability 8 7 9)) ∧
     (∀ i ∈ (validate_csv (some REQUIRED_COLUMNS) [row0] true).1.issues,
        i.row_number = 2 + 0 → i.column ≠ "stability")) :=
  ⟨by with_unfolding_all decide,
   @C1_stability_silent_fill REQUIRED_COLUMNS [row0] true 0 row0 8 7 9 rfl
     (by with_unfolding_all decide) (by with_unfolding_all decide)
     (by with_unfolding_all decide) (by with_unfolding_all decide)⟩

theorem diff_3_tenths_big : 1 / 10 < |(53 / 10 : ℚ) - compute_stability 5 5 5| := by
  have hcs : compute_stability 5 5 5 = 5 := by with_unfolding_all decide
  rw [hcs, show (53 / 10 : ℚ) - 5 = 3 / 10 by norm_num, abs_of_pos (by norm_num)]
  norm_num

theorem diff_1_tenth_small : ¬(1 / 10 < |(51 / 10 : ℚ) - compute_stability 5 5 5|) := by
  have hcs : compute_stability 5 5 5 = 5 := by with_unfolding_all decide
  rw [hcs, show (51 / 10 : ℚ) - 5 = 1 / 10 by norm_num, abs_of_pos (by norm_num)]
  norm_num

/-- Witness for C2: a difference of 0.3 produces the mismatch issue, a
difference of exactly 0.1 does not. -/
theorem C2_stability_mismatch_iff_witness :
    ((1 / 10 < |(53 / 10 : ℚ) - compute_stability 5 5 5|) ∧
      ((⟨2 + 0, "stability", mismatchMsg (53 / 10) (compute_stability 5 5 5)⟩ : Issue) ∈
        (validate_csv (some REQUIRED_COLUMNS) [rowD2] false).1.issues)) ∧
    (¬(1 / 10 < |(51 / 10 : ℚ) - compute_stability 5 5 5|) ∧
      ¬((⟨2 + 0, "stability", mismatchMsg (51 / 10) (compute_stability 5 5 5)⟩ : Issue) ∈
        (validate_csv (some REQUIRED_COLUMNS) [rowD1] false).1.issues)) :=
  ⟨⟨diff_3_tenths_big,
    (@C2_stability_mismatch_iff REQUIRED_COLUMNS [rowD2] false 0 rowD2 5 5 5 (53 / 10) rfl
        (by with_unfolding_all decide) (by with_unfolding_all decide)
        (by with_unfolding_all decide) (by with_unfolding_all decide)).mpr diff_3_tenths_big⟩,
   ⟨diff_1_tenth_small,
    fun hm =>
      absurd ((@C2_stability_mismatch_iff REQUIRED_COLUMNS [rowD1] false 0 rowD1 5 5 5 (51 / 10)
          rfl (by with_unfolding_all decide) (by with_unfolding_all decide)
          (by with_unfolding_all decide) (by with_unfolding_all decide)).mp hm)
        diff_1_tenth_small⟩⟩

/-- Witness for C3 on a three-row file: the first occurrence of a date is
silent, the second (identical after stripping) is a duplicate, and a
whitespace-only date is missing. -/
theorem C3_date_checks_witness :
    ((validate_csv (some REQUIRED_COLUMNS) [rowA, rowB, rowC] false).1.issues.filter
        (fun i => i.row_number == 2 + 0 && i.column == "date") = []) ∧
    ((validate_csv (some REQUIRED_COLUMNS) [rowA, rowB, rowC] false).1.issues.filter
        (fun i => i.row_number == 2 + 1 && i.column == "date") =
      [⟨2 + 1, "date", "Duplicate date: " ++ "2024-01-01"⟩]) ∧
    ((validate_csv (some REQUIRED_COLUMNS) [rowA, rowB, rowC] false).1.issues.filter
        (fun i => i.row_number == 2 + 2 && i.column == "date") =
      [⟨2 + 2, "date", "Missing date"⟩]) :=
  ⟨(@C3_date_checks REQUIRED_COLUMNS [rowA, rowB, rowC] false 0 rowA rfl).trans
     (by with_unfolding_all decide),
   (@C3_date_checks REQUIRED_COLUMNS [rowA, rowB, rowC] false 1 rowB rfl).trans
     (by with_unfolding_all decide),
   (@C3_date_checks REQUIRED_COLUMNS [rowA, rowB, rowC] false 2 rowC rfl).trans
     (by with_unfolding_all decide)⟩

/-- Witness for C4: a header missing eleven required columns and carrying the
extra `mood` gets the two combined header issues; the reversed required list
(order scrambled, same set) gets zero header issues. -/
theorem C4_header_validation_witness :
    ((validate_csv (some ["date", "mood"]) [] false).1.issues.filter
        (fun i => i.row_number == 0) =
      [⟨0, "header", "Missing columns: " ++ pyStrList (missingColumns ["date", "mood"])⟩,
       ⟨0, "header", "Unexpected extra columns: " ++ pyStrList (extraColumns ["date", "mood"])⟩]) ∧
    ((validate_csv (some REQUIRED_COLUMNS.reverse) [] false).1.issues.filter
        (fun i => i.row_number == 0) = []) :=
  ⟨(C4_header_validation ["date", "mood"] [] false).1.trans (by with_unfolding_all decide),
   (C4_header_validation REQUIRED_COLUMNS.reverse [] false).2
     (fun c => List.mem_reverse)⟩

/-- Witness for C5: `exercise_minutes = "30.5"` yields exactly one
`Expected integer` issue and zero range issues. -/
theorem C5_integer_check_witness :
    (validate_csv (some REQUIRED_COLUMNS) [rowEx] false).1.issues.filter
        (fun i => i.row_number == 2 + 0 && i.column == "exercise_minutes") =
      [⟨2 + 0, "exercise_minutes", "Expected integer, got: " ++ fmtFloat (61 / 2)⟩] :=
  (@C5_integer_check REQUIRED_COLUMNS [rowEx] false 0 rowEx "exercise_minutes" 0 300 (61 / 2)
      rfl rfl (by with_unfolding_all decide) (by with_unfolding_all decide)
      (by with_unfolding_all decide)).trans
    (by with_unfolding_all decide)

/-- Witness for C6: clarity `"12"` is out of range, is reported, and is still
recorded as the numeric value of the field. -/
theorem C6_out_of_range_recorded_witness :
    ((⟨2 + 0, "clarity",
        "Out of range " ++ fmtFloat 0 ++ "–" ++ fmtFloat 10 ++ ": " ++ fmtFloat 12⟩ : Issue) ∈
      (validate_csv (some REQUIRED_COLUMNS) [rowCl] false).1.issues) ∧
    nvGet (numericChecks (2 + 0) (cleanRow rowCl)).2 "clarity" = some 12 :=
  @C6_out_of_range_recorded REQUIRED_COLUMNS [rowCl] false 0 rowCl "clarity" 0 10 12 rfl rfl
    (by with_unfolding_all decide) (by with_unfolding_all decide)

/-- Witness for C7: the written row for a file with the undeclared column
`mood` holds exactly the required columns with the cleaned values, and `mood`
is dropped. -/
theorem C7_write_back_witness :
    ((validate_csv (some ["date", "mood"]) [rowMood] true).1.rows_out[0]? = some rowMood) ∧
    (∃ w, (writeBackRows (validate_csv (some ["date", "mood"]) [rowMood] true).1.rows_out)[0]? =
        some w ∧
      ∀ c, getField w c = (if c ∈ REQUIRED_COLUMNS then getField rowMood c else "")) :=
  ⟨by with_unfolding_all decide,
   (C7_write_back ["date", "mood"] [rowMood]).2.2.2 0 rowMood (by with_unfolding_all decide)⟩

/-- Witness for C9: the single row of a one-row file contributes exactly its
cleaned row at index 0. -/
theorem C9_row_count_witness :
    ([row0][0]? = some row0) ∧
    ((validate_csv (some REQUIRED_COLUMNS) [row0] false).1.rows_out[0]? =
      some ((processRow (2 + 0) row0 []).2.1)) :=
  ⟨rfl, (C9_row_count REQUIRED_COLUMNS [row0] false).2.2 0 row0 rfl⟩

/-- Witness for C10: stability `"abc"` gets a `Not a number` issue and the
cleaned row still receives the computed `"8.0"`. -/
theorem C10_unparsable_stability_filled_witness :
    (is_blank (some (getField (cleanRow rowNaN) "stability")) = false) ∧
    (((⟨2 + 0, "stability",
        "Not a number: " ++ sq ++ getField (cleanRow rowNaN) "stability" ++ sq⟩ : Issue) ∈
        (validate_csv (some REQUIRED_COLUMNS) [rowNaN] false).1.issues) ∧
     (∃ out, (validate_csv (some REQUIRED_COLUMNS) [rowNaN] false).1.rows_out[0]? = some out ∧
        getField out "stability" = fmtFixed1 (compute_stability 8 7 9))) :=
  ⟨by with_unfolding_all decide,
   @C10_unparsable_stability_filled REQUIRED_COLUMNS [rowNaN] false 0 rowNaN 8 7 9 rfl
     (by with_unfolding_all decide) (by with_unfolding_all decide)
     (by with_unfolding_all decide) (by with_unfolding_all decide)
     (by with_unfolding_all decide)⟩

end HabitTracking
